import Mathlib

/-
  Verification of the IMU protocol header (ImuProt.h) and its example driver.

  The C code is shallowly embedded: byte buffers become `List ℕ` whose
  entries are byte values (< 256 where this matters, stated as a hypothesis),
  `uint32_t` arithmetic becomes `ℕ` arithmetic (the CRC computations never
  exceed 2 ^ 32 starting from values below 2 ^ 32, so no reduction is
  needed), and the packed little-endian struct reads of `checkImuProtBuffer`
  become explicit little-endian reads at the field offsets of `ImuProt_t`.
-/

set_option maxRecDepth 10000

namespace ImuProt

/-- Header constant `IMU_PROT_HEADER` (0x9574) from ImuProt.h. -/
def IMU_PROT_HEADER : ℕ := 0x9574

/-- Initial value `CRC32_INITIAL` (0xFFFFFFFF) from ImuProt.h. -/
def CRC32_INITIAL : ℕ := 0xFFFFFFFF

/-- Reflected polynomial `CRC32_POLYNOM` (0xEDB88320) from ImuProt.h. -/
def CRC32_POLYNOM : ℕ := 0xEDB88320

/-- One iteration of the inner bit loop of the SOFT_CRC `protCRC32`:
`if (crc & 1) crc = (crc >> 1) ^ CRC32_POLYNOM; else crc = crc >> 1;`. -/
def crcStep (crc : ℕ) : ℕ :=
  if crc % 2 = 1 then (crc / 2) ^^^ CRC32_POLYNOM else crc / 2

/-- `k` iterations of `crcStep`; the source's inner `for (j = 0; j < 8; j++)`
loop is `crcSteps 8`. -/
def crcSteps : ℕ → ℕ → ℕ
  | 0, crc => crc
  | k + 1, crc => crcSteps k (crcStep crc)

/-- Body of the outer loop of the SOFT_CRC `protCRC32`: `crc = crc ^ *buff++`
followed by eight bit steps. -/
def softByteStep (crc b : ℕ) : ℕ := crcSteps 8 (crc ^^^ b)

/-- The SOFT_CRC (bit-wise) branch of `protCRC32` from ImuProt.h: processes
`len` bytes of `buff`, starting from `CRC32_INITIAL` and xoring it back at
the end. -/
def protCRC32_soft (buff : List ℕ) (len : ℕ) : ℕ :=
  ((buff.take len).foldl softByteStep CRC32_INITIAL) ^^^ CRC32_INITIAL

/-- The 256-entry table `crc32_ccitt_table` from ImuProt.h, verbatim. -/
def crc32_ccitt_table : List ℕ := [
  0x00000000, 0x77073096, 0xee0e612c, 0x990951ba, 0x076dc419,
  0x706af48f, 0xe963a535, 0x9e6495a3, 0x0edb8832, 0x79dcb8a4,
  0xe0d5e91e, 0x97d2d988, 0x09b64c2b, 0x7eb17cbd, 0xe7b82d07,
  0x90bf1d91, 0x1db71064, 0x6ab020f2, 0xf3b97148, 0x84be41de,
  0x1adad47d, 0x6ddde4eb, 0xf4d4b551, 0x83d385c7, 0x136c9856,
  0x646ba8c0, 0xfd62f97a, 0x8a65c9ec, 0x14015c4f, 0x63066cd9,
  0xfa0f3d63, 0x8d080df5, 0x3b6e20c8, 0x4c69105e, 0xd56041e4,
  0xa2677172, 0x3c03e4d1, 0x4b04d447, 0xd20d85fd, 0xa50ab56b,
  0x35b5a8fa, 0x42b2986c, 0xdbbbc9d6, 0xacbcf940, 0x32d86ce3,
  0x45df5c75, 0xdcd60dcf, 0xabd13d59, 0x26d930ac, 0x51de003a,
  0xc8d75180, 0xbfd06116, 0x21b4f4b5, 0x56b3c423, 0xcfba9599,
  0xb8bda50f, 0x2802b89e, 0x5f058808, 0xc60cd9b2, 0xb10be924,
  0x2f6f7c87, 0x58684c11, 0xc1611dab, 0xb6662d3d, 0x76dc4190,
  0x01db7106, 0x98d220bc, 0xefd5102a, 0x71b18589, 0x06b6b51f,
  0x9fbfe4a5, 0xe8b8d433, 0x7807c9a2, 0x0f00f934, 0x9609a88e,
  0xe10e9818, 0x7f6a0dbb, 0x086d3d2d, 0x91646c97, 0xe6635c01,
  0x6b6b51f4, 0x1c6c6162, 0x856530d8, 0xf262004e, 0x6c0695ed,
  0x1b01a57b, 0x8208f4c1, 0xf50fc457, 0x65b0d9c6, 0x12b7e950,
  0x8bbeb8ea, 0xfcb9887c, 0x62dd1ddf, 0x15da2d49, 0x8cd37cf3,
  0xfbd44c65, 0x4db26158, 0x3ab551ce, 0xa3bc0074, 0xd4bb30e2,
  0x4adfa541, 0x3dd895d7, 0xa4d1c46d, 0xd3d6f4fb, 0x4369e96a,
  0x346ed9fc, 0xad678846, 0xda60b8d0, 0x44042d73, 0x33031de5,
  0xaa0a4c5f, 0xdd0d7cc9, 0x5005713c, 0x270241aa, 0xbe0b1010,
  0xc90c2086, 0x5768b525, 0x206f85b3, 0xb966d409, 0xce61e49f,
  0x5edef90e, 0x29d9c998, 0xb0d09822, 0xc7d7a8b4, 0x59b33d17,
  0x2eb40d81, 0xb7bd5c3b, 0xc0ba6cad, 0xedb88320, 0x9abfb3b6,
  0x03b6e20c, 0x74b1d29a, 0xead54739, 0x9dd277af, 0x04db2615,
  0x73dc1683, 0xe3630b12, 0x94643b84, 0x0d6d6a3e, 0x7a6a5aa8,
  0xe40ecf0b, 0x9309ff9d, 0x0a00ae27, 0x7d079eb1, 0xf00f9344,
  0x8708a3d2, 0x1e01f268, 0x6906c2fe, 0xf762575d, 0x806567cb,
  0x196c3671, 0x6e6b06e7, 0xfed41b76, 0x89d32be0, 0x10da7a5a,
  0x67dd4acc, 0xf9b9df6f, 0x8ebeeff9, 0x17b7be43, 0x60b08ed5,
  0xd6d6a3e8, 0xa1d1937e, 0x38d8c2c4, 0x4fdff252, 0xd1bb67f1,
  0xa6bc5767, 0x3fb506dd, 0x48b2364b, 0xd80d2bda, 0xaf0a1b4c,
  0x36034af6, 0x41047a60, 0xdf60efc3, 0xa867df55, 0x316e8eef,
  0x4669be79, 0xcb61b38c, 0xbc66831a, 0x256fd2a0, 0x5268e236,
  0xcc0c7795, 0xbb0b4703, 0x220216b9, 0x5505262f, 0xc5ba3bbe,
  0xb2bd0b28, 0x2bb45a92, 0x5cb36a04, 0xc2d7ffa7, 0xb5d0cf31,
  0x2cd99e8b, 0x5bdeae1d, 0x9b64c2b0, 0xec63f226, 0x756aa39c,
  0x026d930a, 0x9c0906a9, 0xeb0e363f, 0x72076785, 0x05005713,
  0x95bf4a82, 0xe2b87a14, 0x7bb12bae, 0x0cb61b38, 0x92d28e9b,
  0xe5d5be0d, 0x7cdcefb7, 0x0bdbdf21, 0x86d3d2d4, 0xf1d4e242,
  0x68ddb3f8, 0x1fda836e, 0x81be16cd, 0xf6b9265b, 0x6fb077e1,
  0x18b74777, 0x88085ae6, 0xff0f6a70, 0x66063bca, 0x11010b5c,
  0x8f659eff, 0xf862ae69, 0x616bffd3, 0x166ccf45, 0xa00ae278,
  0xd70dd2ee, 0x4e048354, 0x3903b3c2, 0xa7672661, 0xd06016f7,
  0x4969474d, 0x3e6e77db, 0xaed16a4a, 0xd9d65adc, 0x40df0b66,
  0x37d83bf0, 0xa9bcae53, 0xdebb9ec5, 0x47b2cf7f, 0x30b5ffe9,
  0xbdbdf21c, 0xcabac28a, 0x53b39330, 0x24b4a3a6, 0xbad03605,
  0xcdd70693, 0x54de5729, 0x23d967bf, 0xb3667a2e, 0xc4614ab8,
  0x5d681b02, 0x2a6f2b94, 0xb40bbe37, 0xc30c8ea1, 0x5a05df1b,
  0x2d02ef8d]

/-- Body of the loop of the table-driven `protCRC32`:
`crc32 = crc32_ccitt_table[(crc32 ^ buff[i]) & 0xff] ^ (crc32 >> 8);`. -/
def tableByteStep (crc b : ℕ) : ℕ :=
  crc32_ccitt_table.getD ((crc ^^^ b) % 256) 0 ^^^ (crc / 256)

/-- The table-driven branch of `protCRC32` from ImuProt.h (the branch that
compiles when SOFT_CRC is not defined, which is the default). -/
def protCRC32_table (buff : List ℕ) (len : ℕ) : ℕ :=
  ((buff.take len).foldl tableByteStep CRC32_INITIAL) ^^^ CRC32_INITIAL

/-- Verdicts of `ImuProtError_t` from ImuProt.h: `IMU_PROT_OK`,
`IMU_PROT_BAD_HEADER`, `IMU_PROT_BAD_SEQUENCER`, `IMU_PROT_BAD_CRC`. -/
inductive ImuProtError
  | ok
  | badHeader
  | badSequencer
  | badCrc
deriving DecidableEq

/-- Byte of a buffer at index `i` (out-of-range reads default to 0; the
claims only involve buffers long enough that this never happens). -/
def byteAt (buffer : List ℕ) (i : ℕ) : ℕ := buffer.getD i 0

/-- Little-endian 16-bit read at byte offset `off`, as performed by the
packed-struct field access `prot->header` on a little-endian host. -/
def readLE16 (buffer : List ℕ) (off : ℕ) : ℕ :=
  byteAt buffer off + 2 ^ 8 * byteAt buffer (off + 1)

/-- Little-endian 32-bit read at byte offset `off`, as performed by the
packed-struct field access `prot->crc32` on a little-endian host. -/
def readLE32 (buffer : List ℕ) (off : ℕ) : ℕ :=
  byteAt buffer off + 2 ^ 8 * byteAt buffer (off + 1) +
    2 ^ 16 * byteAt buffer (off + 2) + 2 ^ 24 * byteAt buffer (off + 3)

/-- The 8-bit truncation of the C integer complement, as in
`const uint8_t sequencer = ~prot->ff_sequencer;`: for any `x` this equals
`(~x) & 0xFF` of the C code. -/
def complement8 (x : ℕ) : ℕ := 255 - x % 256

/-- Field names of the packed struct `ImuProt_t` (with the fields of the
nested `ImuData_t` flattened in declaration order). -/
inductive ImuProtField
  | header
  | sequencer
  | ff_sequencer
  | mux
  | flags
  | temperature
  | gyro
  | accl
  | crc32
deriving DecidableEq

/-- Width in bytes of each field of the packed `ImuProt_t`, read off the
source declarations: `uint16_t header`, `uint8_t sequencer`,
`uint8_t ff_sequencer`, then `ImuData_t data` (`uint32_t mux`,
`uint16_t flags` union, `uint16_t temperature`, `int32_t gyro[3]`,
`int32_t accl[3]`), then `uint32_t crc32`. -/
def fieldSize : ImuProtField → ℕ
  | .header => 2
  | .sequencer => 1
  | .ff_sequencer => 1
  | .mux => 4
  | .flags => 2
  | .temperature => 2
  | .gyro => 12
  | .accl => 12
  | .crc32 => 4

/-- Declaration order of the fields of the packed `ImuProt_t`. -/
def fieldOrder : List ImuProtField :=
  [.header, .sequencer, .ff_sequencer, .mux, .flags, .temperature,
   .gyro, .accl, .crc32]

/-- `sizeof(ImuProt_t)`: the struct is `__attribute__((packed))`, so its
size is the sum of the field widths. -/
def sizeofImuProt : ℕ := (fieldOrder.map fieldSize).sum

/-- Byte offset of a field of the packed `ImuProt_t`: the sum of the widths
of the fields declared before it (packed, so there is no padding). -/
def fieldOffset (f : ImuProtField) : ℕ :=
  ((fieldOrder.takeWhile (fun g => g ≠ f)).map fieldSize).sum

/-- `checkImuProtBuffer` from ImuProt.h, with the packed-struct reads made
explicit little-endian reads: header check, sequencer-complement check,
then CRC32 over `sizeof(ImuProt_t) - sizeof(uint32_t)` bytes compared with
the stored `crc32` field.  The table-driven `protCRC32` is used, as in the
default build (SOFT_CRC undefined). -/
def checkImuProtBuffer (buffer : List ℕ) : ImuProtError :=
  if IMU_PROT_HEADER ≠ readLE16 buffer (fieldOffset .header) then .badHeader
  else if byteAt buffer (fieldOffset .sequencer) ≠
      complement8 (byteAt buffer (fieldOffset .ff_sequencer)) then .badSequencer
  else if protCRC32_table buffer (sizeofImuProt - 4) ≠
      readLE32 buffer (fieldOffset .crc32) then .badCrc
  else .ok

/-- Kelvin offset constant `KELVIN` (273.15f) from ImuProt.h, modelled as an
exact rational. -/
def KELVIN : ℚ := 273.15

/-- Function `tempToKelvin` from ImuProt.h, mirroring its statement sequence
`c += KELVIN; c *= 100; c += 0.5; if (c < 0) c = 0; return (uint16_t)c;`.
The C code computes in 32-bit floats; the model computes in exact rationals.
The final conversion of a clamped nonnegative value to `uint16_t` truncates
toward zero, which is the integer floor; conversion of an out-of-range value
is modelled as reduction mod 2 ^ 16, the de-facto wraparound behaviour of
the float-to-int then int-to-uint16 narrowing on common targets. -/
def tempToKelvin (c : ℚ) : ℕ :=
  let c1 := c + KELVIN
  let c2 := c1 * 100
  let c3 := c2 + 0.5
  if c3 < 0 then 0 else (⌊c3⌋).toNat % 2 ^ 16

/-- The first sample packet of the example driver, the 40 bytes of the hex
string 74951EE10000000000008179CAF6FFFF85FCFFFFC801000079ECFFFFDCE3FFFFF9C30900BA11DF0F. -/
def packet1 : List ℕ :=
  [0x74, 0x95, 0x1E, 0xE1, 0x00, 0x00, 0x00, 0x00, 0x00, 0x00,
   0x81, 0x79, 0xCA, 0xF6, 0xFF, 0xFF, 0x85, 0xFC, 0xFF, 0xFF,
   0xC8, 0x01, 0x00, 0x00, 0x79, 0xEC, 0xFF, 0xFF, 0xDC, 0xE3,
   0xFF, 0xFF, 0xF9, 0xC3, 0x09, 0x00, 0xBA, 0x11, 0xDF, 0x0F]

/-- The fifth sample packet of the example driver (first broken packet,
header byte flipped): hex 749422DD0000000000007F7912EFFFFF99F4FFFFFEF9FFFFBFEAFFFFAADCFFFFB5CA0900C8E47F2F. -/
def packetBadHeader : List ℕ :=
  [0x74, 0x94, 0x22, 0xDD, 0x00, 0x00, 0x00, 0x00, 0x00, 0x00,
   0x7F, 0x79, 0x12, 0xEF, 0xFF, 0xFF, 0x99, 0xF4, 0xFF, 0xFF,
   0xFE, 0xF9, 0xFF, 0xFF, 0xBF, 0xEA, 0xFF, 0xFF, 0xAA, 0xDC,
   0xFF, 0xFF, 0xB5, 0xCA, 0x09, 0x00, 0xC8, 0xE4, 0x7F, 0x2F]

/-- The sixth sample packet of the example driver (second broken packet,
bit flipped in the inverted-sequencer byte): hex
749522CD0000000000007F7912EFFFFF99F4FFFFFEF9FFFFBFEAFFFFAADCFFFFB5CA0900C8E47F2F. -/
def packetBadSequencer : List ℕ :=
  [0x74, 0x95, 0x22, 0xCD, 0x00, 0x00, 0x00, 0x00, 0x00, 0x00,
   0x7F, 0x79, 0x12, 0xEF, 0xFF, 0xFF, 0x99, 0xF4, 0xFF, 0xFF,
   0xFE, 0xF9, 0xFF, 0xFF, 0xBF, 0xEA, 0xFF, 0xFF, 0xAA, 0xDC,
   0xFF, 0xFF, 0xB5, 0xCA, 0x09, 0x00, 0xC8, 0xE4, 0x7F, 0x2F]

/-- Sample packet with one trailing over-allocated byte appended. -/
def packet1ext : List ℕ := packet1 ++ [0x00]

/-- ASCII bytes of the string 123456789, the standard CRC32 test vector. -/
def crcTestVector : List ℕ := [0x31, 0x32, 0x33, 0x34, 0x35, 0x36, 0x37, 0x38, 0x39]

/-- Division by two distributes over xor on ℕ. -/
lemma xor_div_two (a b : ℕ) : (a ^^^ b) / 2 = a / 2 ^^^ b / 2 := by
  apply Nat.eq_of_testBit_eq
  intro i
  simp [Nat.testBit_div_two, Nat.testBit_xor]

/-- Reduction mod a power of two distributes over xor on ℕ. -/
lemma xor_mod_two_pow (a b k : ℕ) : (a ^^^ b) % 2 ^ k = a % 2 ^ k ^^^ b % 2 ^ k := by
  apply Nat.eq_of_testBit_eq
  intro i
  simp only [Nat.testBit_mod_two_pow, Nat.testBit_xor]
  cases Decidable.em (i < k) <;> simp [*]

/-- Every natural splits as the xor of its high part and its low `k` bits. -/
lemma two_pow_div_xor_mod (n k : ℕ) : 2 ^ k * (n / 2 ^ k) ^^^ n % 2 ^ k = n := by
  apply Nat.eq_of_testBit_eq
  intro i
  rw [Nat.mul_comm, ← Nat.shiftLeft_eq]
  have hdiv : n / 2 ^ k = n >>> k := (Nat.shiftRight_eq_div_pow n k).symm
  rw [hdiv]
  simp only [Nat.testBit_xor, Nat.testBit_shiftLeft, Nat.testBit_mod_two_pow,
    Nat.testBit_shiftRight]
  cases Decidable.em (i < k) with
  | inl h => simp [h, Nat.not_le.mpr h]
  | inr h =>
    have hk : k ≤ i := Nat.not_lt.mp h
    simp [h, hk, Nat.add_sub_cancel' hk]

/-- Left-commutativity of xor on ℕ, for use as a simp normaliser. -/
lemma xor_left_comm (a b c : ℕ) : a ^^^ (b ^^^ c) = b ^^^ (a ^^^ c) := by
  rw [← Nat.xor_assoc, Nat.xor_comm a b, Nat.xor_assoc]

/-- Branch-free form of `crcStep`. -/
lemma crcStep_eq (crc : ℕ) :
    crcStep crc = crc / 2 ^^^ (if crc % 2 = 1 then CRC32_POLYNOM else 0) := by
  unfold crcStep
  split <;> simp

/-- One CRC bit step is linear over xor. -/
lemma crcStep_xor (a b : ℕ) : crcStep (a ^^^ b) = crcStep a ^^^ crcStep b := by
  rw [crcStep_eq (a ^^^ b), crcStep_eq a, crcStep_eq b, xor_div_two]
  have hpar : (a ^^^ b) % 2 = (a % 2 + b % 2) % 2 := by
    rw [Nat.xor_mod_two_eq, Nat.add_mod]
  rcases Nat.mod_two_eq_zero_or_one a with ha | ha <;>
    rcases Nat.mod_two_eq_zero_or_one b with hb | hb <;>
      simp [ha, hb, hpar, Nat.xor_assoc, Nat.xor_comm, xor_left_comm, Nat.xor_cancel_left]

/-- Iterated CRC bit steps are linear over xor. -/
lemma crcSteps_xor (k a b : ℕ) : crcSteps k (a ^^^ b) = crcSteps k a ^^^ crcSteps k b := by
  induction k generalizing a b with
  | zero => rfl
  | succ k ih => simp only [crcSteps, crcStep_xor, ih]

/-- On a multiple of `2 ^ k`, `k` CRC bit steps reduce to a plain shift. -/
lemma crcSteps_two_pow_mul (k h : ℕ) : crcSteps k (2 ^ k * h) = h := by
  induction k generalizing h with
  | zero => simp [crcSteps]
  | succ k ih =>
    have hrw : 2 ^ (k + 1) * h = 2 * (2 ^ k * h) := by ring
    have heven : ¬ (2 * (2 ^ k * h)) % 2 = 1 := by
      simp [Nat.mul_mod_right]
    have hdiv : 2 * (2 ^ k * h) / 2 = 2 ^ k * h :=
      Nat.mul_div_cancel_left _ (by norm_num)
    simp only [crcSteps, crcStep, hrw, heven, if_false, hdiv, ih]

/-- Each entry of the precomputed table is the result of eight bit steps on
its index: the table is derived mechanically from the polynomial. -/
lemma table_entries : ∀ l : ℕ, l < 256 → crc32_ccitt_table.getD l 0 = crcSteps 8 l := by
  decide

/-- Subtraction from 255 is xor with 255 on bytes. -/
lemma sub_255_eq_xor : ∀ y : ℕ, y < 256 → 255 - y = 255 ^^^ y := by
  decide

/-- The bit-wise and the table-driven byte steps agree on byte inputs. -/
lemma softByteStep_eq_tableByteStep (crc b : ℕ) (hb : b < 256) :
    softByteStep crc b = tableByteStep crc b := by
  have hb8 : b < 2 ^ 8 := by simpa using hb
  have hlt : (crc % 2 ^ 8) ^^^ b < 256 := by
    have := Nat.xor_lt_two_pow (Nat.mod_lt crc (y := 2 ^ 8) (by norm_num)) hb8
    simpa using this
  have hmod : (crc ^^^ b) % 256 = (crc % 2 ^ 8) ^^^ b := by
    have h1 : (crc ^^^ b) % 2 ^ 8 = crc % 2 ^ 8 ^^^ b % 2 ^ 8 := xor_mod_two_pow crc b 8
    have h2 : b % 2 ^ 8 = b := Nat.mod_eq_of_lt hb8
    rw [show (256 : ℕ) = 2 ^ 8 by norm_num, h1, h2]
  have hsplit : crc ^^^ b = 2 ^ 8 * (crc / 2 ^ 8) ^^^ ((crc % 2 ^ 8) ^^^ b) := by
    conv_lhs => rw [← two_pow_div_xor_mod crc 8]
    rw [Nat.xor_assoc]
  have hsoft : softByteStep crc b = crc / 2 ^ 8 ^^^ crcSteps 8 ((crc % 2 ^ 8) ^^^ b) := by
    unfold softByteStep
    rw [hsplit, crcSteps_xor, crcSteps_two_pow_mul]
  have htab : tableByteStep crc b = crc / 2 ^ 8 ^^^ crcSteps 8 ((crc % 2 ^ 8) ^^^ b) := by
    unfold tableByteStep
    rw [hmod, table_entries _ hlt, show (256 : ℕ) = 2 ^ 8 by norm_num,
      Nat.xor_comm]
  rw [hsoft, htab]

/-- Folding the two byte steps over a list of bytes gives the same result. -/
lemma foldl_byteStep_eq (l : List ℕ) (hl : ∀ b ∈ l, b < 256) (crc : ℕ) :
    l.foldl softByteStep crc = l.foldl tableByteStep crc := by
  induction l generalizing crc with
  | nil => rfl
  | cons x xs ih =>
    simp only [List.foldl_cons]
    rw [softByteStep_eq_tableByteStep crc x (hl x (by simp))]
    exact ih (fun b hb => hl b (by simp [hb])) _

/-- In a buffer of bytes, every position reads below 256 (out-of-range
positions read the default 0). -/
lemma byteAt_lt (buffer : List ℕ) (hb : ∀ b ∈ buffer, b < 256) (i : ℕ) :
    byteAt buffer i < 256 := by
  unfold byteAt
  rcases Nat.lt_or_ge i buffer.length with h | h
  · rw [List.getD_eq_getElem?_getD, List.getElem?_eq_getElem h]
    exact hb _ (List.getElem_mem h)
  · rw [List.getD_eq_getElem?_getD, List.getElem?_eq_none h]
    norm_num

/-- Reading inside the taken part of a buffer reads the original buffer. -/
lemma byteAt_take (b : List ℕ) (n i : ℕ) (h : i < n) :
    byteAt (b.take n) i = byteAt b i := by
  unfold byteAt
  rw [List.getD_eq_getElem?_getD, List.getD_eq_getElem?_getD,
    List.getElem?_take_of_lt h]

/-- Offset of the header field. -/
lemma fieldOffset_header_eq : fieldOffset .header = 0 := by decide

/-- Offset of the sequencer field. -/
lemma fieldOffset_sequencer_eq : fieldOffset .sequencer = 2 := by decide

/-- Offset of the inverted-sequencer field. -/
lemma fieldOffset_ff_eq : fieldOffset .ff_sequencer = 3 := by decide

/-- Offset of the crc32 field. -/
lemma fieldOffset_crc32_eq : fieldOffset .crc32 = 36 := by decide

/-- Size of the packed packet struct. -/
lemma sizeofImuProt_eq : sizeofImuProt = 40 := by decide

/-- Length of the CRC-covered range used by the validator. -/
lemma crcLen_eq : sizeofImuProt - 4 = 36 := by decide

/-- Form of the validator with the field offsets evaluated. -/
lemma checkImuProtBuffer_eq (buffer : List ℕ) :
    checkImuProtBuffer buffer =
      if IMU_PROT_HEADER ≠ readLE16 buffer 0 then .badHeader
      else if byteAt buffer 2 ≠ complement8 (byteAt buffer 3) then .badSequencer
      else if protCRC32_table buffer 36 ≠ readLE32 buffer 36 then .badCrc
      else .ok := by
  unfold checkImuProtBuffer
  rw [fieldOffset_header_eq, fieldOffset_sequencer_eq, fieldOffset_ff_eq,
    fieldOffset_crc32_eq, crcLen_eq]

/-- Branch-free form of `tempToKelvin` with the constants evaluated. -/
lemma tempToKelvin_eq (c : ℚ) :
    tempToKelvin c =
      if (c + 273.15) * 100 + 1 / 2 < 0 then 0
      else (⌊(c + 273.15) * 100 + 1 / 2⌋).toNat % 2 ^ 16 := by
  unfold tempToKelvin KELVIN
  norm_num

/-- C1: on a buffer of at least the packet size whose header field reads
0x9574 and whose sequencer byte is the 8-bit complement of the byte after
it, `checkImuProtBuffer` returns BadCrc exactly when `protCRC32` over
bytes [0, 36) differs from the little-endian crc field at offset 36, and
Ok exactly when they agree: Ok is returned exactly when all three checks
pass. -/
theorem checkImuProtBuffer_crc_decides (buffer : List ℕ)
    (hlen : sizeofImuProt ≤ buffer.length)
    (hbytes : ∀ b ∈ buffer, b < 256)
    (hhdr : readLE16 buffer 0 = IMU_PROT_HEADER)
    (hseq : byteAt buffer 2 = complement8 (byteAt buffer 3)) :
    (protCRC32_table buffer 36 ≠ readLE32 buffer 36 →
      checkImuProtBuffer buffer = .badCrc) ∧
    (protCRC32_table buffer 36 = readLE32 buffer 36 →
      checkImuProtBuffer buffer = .ok) ∧
    (checkImuProtBuffer buffer = .ok ↔
      protCRC32_table buffer 36 = readLE32 buffer 36) := by
  by_cases hc : protCRC32_table buffer 36 = readLE32 buffer 36 <;>
    simp [checkImuProtBuffer_eq, hhdr, hseq, hc]

/-- Closed witness for `checkImuProtBuffer_crc_decides` at the first sample
packet. -/
theorem checkImuProtBuffer_crc_decides_witness :
    sizeofImuProt ≤ packet1.length ∧ (∀ b ∈ packet1, b < 256) ∧
    readLE16 packet1 0 = IMU_PROT_HEADER ∧
    byteAt packet1 2 = complement8 (byteAt packet1 3) ∧
    ((protCRC32_table packet1 36 ≠ readLE32 packet1 36 →
        checkImuProtBuffer packet1 = .badCrc) ∧
      (protCRC32_table packet1 36 = readLE32 packet1 36 →
        checkImuProtBuffer packet1 = .ok) ∧
      (checkImuProtBuffer packet1 = .ok ↔
        protCRC32_table packet1 36 = readLE32 packet1 36)) :=
  ⟨by decide, by decide, by decide, by decide,
    checkImuProtBuffer_crc_decides packet1 (by decide) (by decide)
      (by decide) (by decide)⟩

/-- C2: on every buffer whose little-endian 16-bit field at offset 0 is not
0x9574, `checkImuProtBuffer` returns BadHeader, whatever the remaining
bytes hold. -/
theorem checkImuProtBuffer_badHeader (buffer : List ℕ)
    (h : readLE16 buffer 0 ≠ IMU_PROT_HEADER) :
    checkImuProtBuffer buffer = .badHeader := by
  rw [checkImuProtBuffer_eq, if_pos (Ne.symm h)]

/-- Closed witness for `checkImuProtBuffer_badHeader` at the broken-header
sample packet of the driver, whose sequencer and CRC checks would pass. -/
theorem checkImuProtBuffer_badHeader_witness :
    readLE16 packetBadHeader 0 ≠ IMU_PROT_HEADER ∧
    checkImuProtBuffer packetBadHeader = .badHeader :=
  ⟨by decide, checkImuProtBuffer_badHeader packetBadHeader (by decide)⟩

/-- C3: on every byte buffer whose header field reads 0x9574 but whose
sequencer byte xored with the byte after it is not 0xFF,
`checkImuProtBuffer` returns BadSequencer, whatever the stored CRC is. -/
theorem checkImuProtBuffer_badSequencer (buffer : List ℕ)
    (hbytes : ∀ b ∈ buffer, b < 256)
    (hhdr : readLE16 buffer 0 = IMU_PROT_HEADER)
    (hseq : byteAt buffer 2 ^^^ byteAt buffer 3 ≠ 255) :
    checkImuProtBuffer buffer = .badSequencer := by
  have hb3 : byteAt buffer 3 < 256 := byteAt_lt buffer hbytes 3
  have hne : byteAt buffer 2 ≠ complement8 (byteAt buffer 3) := by
    intro heq
    apply hseq
    rw [heq, complement8, Nat.mod_eq_of_lt hb3, sub_255_eq_xor _ hb3,
      Nat.xor_cancel_right]
  rw [checkImuProtBuffer_eq, if_neg (by simp [hhdr]), if_pos hne]

/-- Closed witness for `checkImuProtBuffer_badSequencer` at the
broken-sequencer sample packet of the driver. -/
theorem checkImuProtBuffer_badSequencer_witness :
    (∀ b ∈ packetBadSequencer, b < 256) ∧
    readLE16 packetBadSequencer 0 = IMU_PROT_HEADER ∧
    byteAt packetBadSequencer 2 ^^^ byteAt packetBadSequencer 3 ≠ 255 ∧
    checkImuProtBuffer packetBadSequencer = .badSequencer :=
  ⟨by decide, by decide, by decide,
    checkImuProtBuffer_badSequencer packetBadSequencer (by decide)
      (by decide) (by decide)⟩

/-- C4: the bit-wise (SOFT_CRC) and the table-driven implementations of
`protCRC32` agree on every byte sequence and every length. -/
theorem protCRC32_soft_eq_table (buff : List ℕ) (len : ℕ)
    (hbytes : ∀ b ∈ buff, b < 256) :
    protCRC32_soft buff len = protCRC32_table buff len := by
  unfold protCRC32_soft protCRC32_table
  rw [foldl_byteStep_eq (buff.take len)
    (fun b hb => hbytes b (List.take_subset len buff hb)) CRC32_INITIAL]

/-- Closed witness for `protCRC32_soft_eq_table` at the first sample
packet. -/
theorem protCRC32_soft_eq_table_witness :
    (∀ b ∈ packet1, b < 256) ∧
    protCRC32_soft packet1 36 = protCRC32_table packet1 36 :=
  ⟨by decide, protCRC32_soft_eq_table packet1 36 (by decide)⟩

/-- C5: `protCRC32` is the standard reflected CRC32 (polynomial 0xEDB88320,
initial value and final xor 0xFFFFFFFF): both implementations give 0 on the
empty range and 0xCBF43926 on the ASCII bytes of 123456789. -/
theorem protCRC32_test_vectors :
    CRC32_POLYNOM = 0xEDB88320 ∧ CRC32_INITIAL = 0xFFFFFFFF ∧
    protCRC32_soft [] 0 = 0x00000000 ∧ protCRC32_table [] 0 = 0x00000000 ∧
    protCRC32_soft crcTestVector 9 = 0xCBF43926 ∧
    protCRC32_table crcTestVector 9 = 0xCBF43926 := by
  decide

/-- C6: `checkImuProtBuffer` returns Ok on the 40-byte sample packet
74951EE10000000000008179CAF6FFFF85FCFFFFC801000079ECFFFFDCE3FFFFF9C30900BA11DF0F. -/
theorem checkImuProtBuffer_packet1_ok :
    checkImuProtBuffer packet1 = .ok := by
  decide

/-- C7: two buffers that agree on their first `sizeof(ImuProt_t)` = 40
bytes receive the same verdict: the validator never reads past the fixed
packet size, so trailing over-allocated bytes cannot change the result. -/
theorem checkImuProtBuffer_first40 (b1 b2 : List ℕ)
    (h : b1.take sizeofImuProt = b2.take sizeofImuProt) :
    checkImuProtBuffer b1 = checkImuProtBuffer b2 := by
  rw [sizeofImuProt_eq] at h
  have htake : ∀ m : ℕ, m ≤ 40 → b1.take m = b2.take m := by
    intro m hm
    have h2 := congrArg (List.take m) h
    rwa [List.take_take, List.take_take, Nat.min_eq_left hm] at h2
  have hbyte : ∀ i : ℕ, i < 40 → byteAt b1 i = byteAt b2 i := by
    intro i hi
    rw [← byteAt_take b1 40 i hi, htake 40 le_rfl, byteAt_take b2 40 i hi]
  have h16 : readLE16 b1 0 = readLE16 b2 0 := by
    unfold readLE16
    rw [hbyte 0 (by norm_num), hbyte 1 (by norm_num)]
  have h32 : readLE32 b1 36 = readLE32 b2 36 := by
    unfold readLE32
    rw [hbyte 36 (by norm_num), hbyte 37 (by norm_num),
      hbyte 38 (by norm_num), hbyte 39 (by norm_num)]
  have hcrc : protCRC32_table b1 36 = protCRC32_table b2 36 := by
    unfold protCRC32_table
    rw [htake 36 (by norm_num)]
  rw [checkImuProtBuffer_eq, checkImuProtBuffer_eq, h16,
    hbyte 2 (by norm_num), hbyte 3 (by norm_num), h32, hcrc]

/-- Closed witness for `checkImuProtBuffer_first40`: the sample packet and
the same packet with a trailing byte appended get the same verdict. -/
theorem checkImuProtBuffer_first40_witness :
    packet1.take sizeofImuProt = packet1ext.take sizeofImuProt ∧
    checkImuProtBuffer packet1 = checkImuProtBuffer packet1ext :=
  ⟨by decide, checkImuProtBuffer_first40 packet1 packet1ext (by decide)⟩

/-- C9: the packed packet layout is 40 bytes, with header at 0 (2 bytes),
sequencer at 2, inverted sequencer at 3, identity mux word at 4 (4 bytes),
status flags at 8 (2 bytes), raw temperature at 10 (2 bytes), gyro block at
12 (12 bytes), accelerometer block at 24 (12 bytes) and crc at 36 (4
bytes); consequently the length `sizeof(ImuProt_t) - sizeof(uint32_t)`
passed by the validator to `protCRC32` is 36, covering exactly [0, 36). -/
theorem imuProt_layout :
    sizeofImuProt = 40 ∧
    fieldOffset .header = 0 ∧ fieldSize .header = 2 ∧
    fieldOffset .sequencer = 2 ∧ fieldSize .sequencer = 1 ∧
    fieldOffset .ff_sequencer = 3 ∧ fieldSize .ff_sequencer = 1 ∧
    fieldOffset .mux = 4 ∧ fieldSize .mux = 4 ∧
    fieldOffset .flags = 8 ∧ fieldSize .flags = 2 ∧
    fieldOffset .temperature = 10 ∧ fieldSize .temperature = 2 ∧
    fieldOffset .gyro = 12 ∧ fieldSize .gyro = 12 ∧
    fieldOffset .accl = 24 ∧ fieldSize .accl = 12 ∧
    fieldOffset .crc32 = 36 ∧ fieldSize .crc32 = 4 ∧
    sizeofImuProt - 4 = 36 := by
  decide

/-- C8 counterexample: at 400 degrees Celsius the rounded centi-Kelvin
value 67315 does not fit a uint16, and `tempToKelvin` does not return it
(it returns 67315 mod 65536 = 1779), so the claim read over every input
fails. -/
theorem tempToKelvin_round_cex :
    tempToKelvin 400 ≠ (⌊((400 : ℚ) + 273.15) * 100 + 1 / 2⌋).toNat := by
  rw [tempToKelvin_eq]
  norm_num [Int.floor_eq_iff]

/-- C8 amended: whenever the rounded value fits a uint16 (in particular on
the whole physically meaningful range), `tempToKelvin` returns
round((c + 273.15) * 100) computed by adding one half and flooring,
clamped to zero (through `Int.toNat`) when negative; and on every input
the result is nonnegative. -/
theorem tempToKelvin_round (c : ℚ)
    (hlt : ⌊(c + 273.15) * 100 + 1 / 2⌋ < 65536) :
    tempToKelvin c = (⌊(c + 273.15) * 100 + 1 / 2⌋).toNat ∧
    (∀ x : ℚ, 0 ≤ (tempToKelvin x : ℤ)) := by
  constructor
  · rw [tempToKelvin_eq]
    by_cases hneg : (c + 273.15) * 100 + 1 / 2 < (0 : ℚ)
    · rw [if_pos hneg]
      have hfl : ⌊(c + 273.15) * 100 + 1 / 2⌋ < 0 :=
        Int.floor_lt.mpr (by exact_mod_cast hneg)
      omega
    · rw [if_neg hneg]
      push_neg at hneg
      have h0 : 0 ≤ ⌊(c + 273.15) * 100 + 1 / 2⌋ := Int.floor_nonneg.mpr hneg
      have hsm : (⌊(c + 273.15) * 100 + 1 / 2⌋).toNat < 2 ^ 16 := by
        have h2 : (2 : ℕ) ^ 16 = 65536 := by norm_num
        omega
      exact Nat.mod_eq_of_lt hsm
  · intro x
    exact Int.natCast_nonneg _

/-- Closed witness for `tempToKelvin_round` at 25 degrees Celsius. -/
theorem tempToKelvin_round_witness :
    ⌊((25 : ℚ) + 273.15) * 100 + 1 / 2⌋ < 65536 ∧
    (tempToKelvin 25 = (⌊((25 : ℚ) + 273.15) * 100 + 1 / 2⌋).toNat ∧
      (∀ x : ℚ, 0 ≤ (tempToKelvin x : ℤ))) := by
  have pf : ⌊((25 : ℚ) + 273.15) * 100 + 1 / 2⌋ < 65536 := by
    have he : ⌊((25 : ℚ) + 273.15) * 100 + 1 / 2⌋ = 29815 := by
      norm_num [Int.floor_eq_iff]
    omega
  exact ⟨pf, tempToKelvin_round 25 pf⟩

/-- C10: `tempToKelvin` does not clamp at the high end: whenever the
truncated value reaches 65536 the uint16 conversion wraps around mod
2 ^ 16, so the function is not monotone over its whole domain and large
inputs do not saturate to 65535. -/
theorem tempToKelvin_overflow (c : ℚ)
    (hc : 65536 ≤ (c + 273.15) * 100 + 1 / 2) :
    tempToKelvin c = (⌊(c + 273.15) * 100 + 1 / 2⌋).toNat % 65536 ∧
    (∃ a b : ℚ, a < b ∧ tempToKelvin b < tempToKelvin a) ∧
    (∃ x : ℚ, 65536 ≤ (x + 273.15) * 100 + 1 / 2 ∧ tempToKelvin x ≠ 65535) := by
  have e382 : tempToKelvin 382 = 65515 := by
    rw [tempToKelvin_eq]
    norm_num [Int.floor_eq_iff]
    all_goals decide
  have e383 : tempToKelvin 383 = 79 := by
    rw [tempToKelvin_eq]
    norm_num [Int.floor_eq_iff]
    all_goals decide
  refine ⟨?_, ⟨382, 383, by norm_num, by rw [e382, e383]; norm_num⟩,
    ⟨383, by norm_num, by rw [e383]; norm_num⟩⟩
  rw [tempToKelvin_eq, if_neg (not_lt.mpr (le_trans (by norm_num) hc)),
    show (2 : ℕ) ^ 16 = 65536 by norm_num]

/-- Closed witness for `tempToKelvin_overflow` at 400 degrees Celsius. -/
theorem tempToKelvin_overflow_witness :
    65536 ≤ ((400 : ℚ) + 273.15) * 100 + 1 / 2 ∧
    (tempToKelvin 400 = (⌊((400 : ℚ) + 273.15) * 100 + 1 / 2⌋).toNat % 65536 ∧
      (∃ a b : ℚ, a < b ∧ tempToKelvin b < tempToKelvin a) ∧
      (∃ x : ℚ, 65536 ≤ (x + 273.15) * 100 + 1 / 2 ∧ tempToKelvin x ≠ 65535)) := by
  have pf : (65536 : ℚ) ≤ ((400 : ℚ) + 273.15) * 100 + 1 / 2 := by norm_num
  exact ⟨pf, tempToKelvin_overflow 400 pf⟩

end ImuProt
